import Mathlib

/-!
Shallow embedding of the reflux package (Go): a file-transfer metadata
manager persisting records in a BoltDB file.  The in-memory concurrent
map and each BoltDB bucket are modelled as association lists from
string keys to typed records; gob encoding round-trips values, so
bucket values are stored at the typed level.  I/O failures of the
durable store are modelled by explicit fault-injection fields on each
registry state: failPut lists keys whose transactional put fails,
failTx makes a whole update transaction fail to commit, failDbSync
makes the store-wide flush fail.  The wall clock used by UpdateStatus
is modelled by a counter; the Go zero time value corresponds to 0.
-/

set_option maxHeartbeats 1000000

namespace Reflux

/-! ### Association-list primitives (model of sync.Map and of a bucket) -/

def assocLoad {β : Type} : List (String × β) → String → Option β
  | [], _ => none
  | (k, v) :: t, key => if k = key then some v else assocLoad t key

def assocStore {β : Type} : List (String × β) → String → β → List (String × β)
  | [], key, v => [(key, v)]
  | (k, w) :: t, key, v =>
    if k = key then (key, v) :: t else (k, w) :: assocStore t key v

def assocDelete {β : Type} : List (String × β) → String → List (String × β)
  | [], _ => []
  | (k, w) :: t, key =>
    if k = key then assocDelete t key else (k, w) :: assocDelete t key

def assocValues {β : Type} (l : List (String × β)) : List β :=
  l.map Prod.snd

def assocKeys {β : Type} (l : List (String × β)) : List String :=
  l.map Prod.fst

theorem assocLoad_store_self {β : Type} (l : List (String × β)) (k : String) (v : β) :
    assocLoad (assocStore l k v) k = some v := by
  induction l with
  | nil => simp [assocStore, assocLoad]
  | cons h t ih =>
    obtain ⟨k₀, w⟩ := h
    by_cases hk : k₀ = k
    · simp [assocStore, hk, assocLoad]
    · simp [assocStore, hk, assocLoad, ih]

theorem assocLoad_store_ne {β : Type} (l : List (String × β)) (k k₀ : String) (v : β)
    (h : k₀ ≠ k) : assocLoad (assocStore l k v) k₀ = assocLoad l k₀ := by
  induction l with
  | nil => simp [assocStore, assocLoad, Ne.symm h]
  | cons p t ih =>
    obtain ⟨k₁, w⟩ := p
    by_cases hk : k₁ = k
    · subst hk
      simp [assocStore, assocLoad, Ne.symm h]
    · simp only [assocStore, if_neg hk, assocLoad]
      by_cases hk₀ : k₁ = k₀
      · simp [hk₀]
      · simp [hk₀, ih]

theorem assocStore_of_load_none {β : Type} (l : List (String × β)) (k : String) (v : β)
    (h : assocLoad l k = none) : assocStore l k v = l ++ [(k, v)] := by
  induction l with
  | nil => simp [assocStore]
  | cons p t ih =>
    obtain ⟨k₀, w⟩ := p
    by_cases hk : k₀ = k
    · simp [assocLoad, hk] at h
    · simp only [assocLoad, if_neg hk] at h
      simp [assocStore, hk, ih h]

theorem assocLoad_append_of_none {β : Type} (l₁ l₂ : List (String × β)) (k : String)
    (h : assocLoad l₁ k = none) : assocLoad (l₁ ++ l₂) k = assocLoad l₂ k := by
  induction l₁ with
  | nil => simp
  | cons p t ih =>
    obtain ⟨k₀, w⟩ := p
    by_cases hk : k₀ = k
    · simp [assocLoad, hk] at h
    · simp only [assocLoad, if_neg hk] at h
      simp [assocLoad, if_neg hk, ih h]

/-! ### Core data types, from the Go source -/

/-- TransferStatus: the status of a file transfer. -/
inductive TransferStatus where
  | notStarted
  | inProgress
  | completed
  | failed
deriving DecidableEq, Repr

/-- FileMetadata: information about a file transfer.  Go time.Time is
modelled as a Nat clock reading whose zero value means "not set". -/
structure FileMetadata where
  sourcePath : String
  targetPath : String
  status : TransferStatus
  bytesTransferred : Int
  timeStart : Nat
  timeEnd : Nat
  errorMsg : String
deriving DecidableEq, Repr

/-- The Go zero value FileMetadata\x7b\x7d. -/
def FileMetadata.empty : FileMetadata :=
  { sourcePath := "", targetPath := "", status := .notStarted,
    bytesTransferred := 0, timeStart := 0, timeEnd := 0, errorMsg := "" }

/-- The distinct error values the package produces, as an enumeration. -/
inductive RefluxError where
  | attBucketNotFound
  | keyNotFound (key : String)
  | noFilesFound
  | serverInfoNotSet
  | invalidAddressFormat
  | invalidPort (port : Int)
  | emptyUser
  | ioFailure
deriving DecidableEq, Repr

/-- State of the fileMetadataMap registry: in-memory map, the Files
bucket of the durable store (none when the bucket is absent), the
fault-injection environment, and the model clock. -/
structure fileMetadataMap where
  mem : List (String × FileMetadata)
  bucket : Option (List (String × FileMetadata))
  failPut : List String
  failTx : Bool
  failDbSync : Bool
  clock : Nat
deriving DecidableEq, Repr

/-- StoreOrUpdate: db.Update creating the Files bucket if absent and
putting the gob-encoded record under key metadata.SourcePath; the
in-memory map is updated only after the transaction succeeds. -/
def fileMetadataMap.StoreOrUpdate (fmm : fileMetadataMap) (metadata : FileMetadata) :
    Except RefluxError fileMetadataMap :=
  if fmm.failTx then .error .ioFailure
  else if metadata.sourcePath ∈ fmm.failPut then .error .ioFailure
  else .ok { fmm with
    bucket := some (assocStore (fmm.bucket.getD []) metadata.sourcePath metadata),
    mem := assocStore fmm.mem metadata.sourcePath metadata }

/-- Load: reads the in-memory map only, returning the Go zero value
and false when the key is absent. -/
def fileMetadataMap.Load (fmm : fileMetadataMap) (sourcePath : String) :
    FileMetadata × Bool :=
  match assocLoad fmm.mem sourcePath with
  | none => (FileMetadata.empty, false)
  | some m => (m, true)

/-- Delete: db.Update that is a no-op when the Files bucket is absent,
otherwise deletes the key from the bucket; the in-memory entry is
removed only after the transaction commits. -/
def fileMetadataMap.Delete (fmm : fileMetadataMap) (sourcePath : String) :
    Except RefluxError fileMetadataMap :=
  if fmm.failTx then .error .ioFailure
  else .ok { fmm with
    bucket := fmm.bucket.map (fun b => assocDelete b sourcePath),
    mem := assocDelete fmm.mem sourcePath }

/-- syncFile: loads the in-memory record for the key and re-stores it
through StoreOrUpdate; errors when the key is not in the map. -/
def fileMetadataMap.syncFile (fmm : fileMetadataMap) (sourcePath : String) :
    Except RefluxError fileMetadataMap :=
  match assocLoad fmm.mem sourcePath with
  | none => .error (.keyNotFound sourcePath)
  | some meta => fmm.StoreOrUpdate meta

/-- The Range loop inside sync: on a syncFile error the closure
returns false which stops the iteration, but the closure-local error
value is discarded, exactly as in the Go source. -/
def fileMetadataMap.syncRange : fileMetadataMap → List (String × FileMetadata) →
    fileMetadataMap
  | fmm, [] => fmm
  | fmm, (k, _) :: rest =>
    match fmm.syncFile k with
    | .error _ => fmm
    | .ok fmm₁ => fileMetadataMap.syncRange fmm₁ rest

/-- sync: ranges over the in-memory map re-storing every entry, then
returns the result of the store-wide flush alone. -/
def fileMetadataMap.sync (fmm : fileMetadataMap) :
    Option RefluxError × fileMetadataMap :=
  let fmm₁ := fmm.syncRange fmm.mem
  if fmm₁.failDbSync then (some .ioFailure, fmm₁) else (none, fmm₁)

/-- GetSlice: collects all in-memory values; errors when none found. -/
def fileMetadataMap.GetSlice (fmm : fileMetadataMap) :
    Except RefluxError (List FileMetadata) :=
  let files := assocValues fmm.mem
  if files.length = 0 then .error .noFilesFound else .ok files

/-- UpdateStatus: loads the record, sets status and byte count, copies
the error text when an error is supplied, stamps start or end time for
the corresponding statuses, and stores the record back. -/
def fileMetadataMap.UpdateStatus (fmm : fileMetadataMap) (sourcePath : String)
    (status : TransferStatus) (bytesTransferred : Int) (e : Option String) :
    Except RefluxError fileMetadataMap :=
  match assocLoad fmm.mem sourcePath with
  | none => .error (.keyNotFound sourcePath)
  | some meta₀ =>
    let meta₁ := { meta₀ with status := status, bytesTransferred := bytesTransferred }
    let meta₂ := match e with
      | some msg => { meta₁ with errorMsg := msg }
      | none => meta₁
    if status = .inProgress then
      fileMetadataMap.StoreOrUpdate { fmm with clock := fmm.clock + 1 }
        { meta₂ with timeStart := fmm.clock }
    else if status = .completed ∨ status = .failed then
      fileMetadataMap.StoreOrUpdate { fmm with clock := fmm.clock + 1 }
        { meta₂ with timeEnd := fmm.clock }
    else
      fileMetadataMap.StoreOrUpdate fmm meta₂

/-- Start: UpdateStatus to InProgress with zero bytes and no error. -/
def fileMetadataMap.Start (fmm : fileMetadataMap) (sourcePath : String) :
    Except RefluxError fileMetadataMap :=
  fmm.UpdateStatus sourcePath .inProgress 0 none

/-- SetError: UpdateStatus to Failed with zero bytes and the error. -/
def fileMetadataMap.SetError (fmm : fileMetadataMap) (sourcePath : String)
    (e : Option String) : Except RefluxError fileMetadataMap :=
  fmm.UpdateStatus sourcePath .failed 0 e

/-- SetSuccess: UpdateStatus to Completed with the byte count. -/
def fileMetadataMap.SetSuccess (fmm : fileMetadataMap) (sourcePath : String)
    (bytesTransferred : Int) : Except RefluxError fileMetadataMap :=
  fmm.UpdateStatus sourcePath .completed bytesTransferred none

/-- The caller-supplied transfer callback: source and target path in,
bytes transferred and an optional error out. -/
def Transfer : Type := String → String → Int × Option String

/-- The Range loop inside Operate, threading the errGeneral variable:
mark InProgress, run the transfer, mark Failed or Completed with the
returned byte count; any bookkeeping error stops the iteration and is
kept. -/
def fileMetadataMap.operateRange : fileMetadataMap → Transfer →
    List (String × FileMetadata) → Option RefluxError × fileMetadataMap
  | fmm, _, [] => (none, fmm)
  | fmm, t, (_, meta) :: rest =>
    match fmm.UpdateStatus meta.sourcePath .inProgress 0 none with
    | .error e => (some e, fmm)
    | .ok fmm₁ =>
      let r := t meta.sourcePath meta.targetPath
      let next := match r.2 with
        | some terr => fmm₁.UpdateStatus meta.sourcePath .failed r.1 (some terr)
        | none => fmm₁.UpdateStatus meta.sourcePath .completed r.1 none
      match next with
      | .error e => (some e, fmm₁)
      | .ok fmm₂ => fileMetadataMap.operateRange fmm₂ t rest

/-- Operate: runs the range loop over the in-memory entries; on a
bookkeeping error it returns that error at once, otherwise it syncs
and returns GetSlice. -/
def fileMetadataMap.Operate (fmm : fileMetadataMap) (t : Transfer) :
    Except RefluxError (List FileMetadata) × fileMetadataMap :=
  match fmm.operateRange t fmm.mem with
  | (some e, fmm₁) => (.error e, fmm₁)
  | (none, fmm₁) =>
    match fmm₁.sync with
    | (some e, fmm₂) => (.error e, fmm₂)
    | (none, fmm₂) => (fmm₂.GetSlice, fmm₂)

/-! ### The attributes registry (additionals.go) -/

/-- State of the attributes registry, with the AdditionalData bucket
and the same fault-injection environment; the payload type is the
caller-chosen α (Go: any, round-tripped by gob). -/
structure attributes (α : Type) where
  mem : List (String × α)
  bucket : Option (List (String × α))
  failPut : List String
  failTx : Bool
  failDbSync : Bool
deriving DecidableEq, Repr

/-- StoreOrUpdate: encodes the payload then db.Update requiring the
AdditionalData bucket to exist (no create-if-absent here); the
in-memory map is updated only after the transaction succeeds. -/
def attributes.StoreOrUpdate {α : Type} (at_ : attributes α) (key : String) (data : α) :
    Except RefluxError (attributes α) :=
  match at_.bucket with
  | none => .error .attBucketNotFound
  | some b =>
    if at_.failTx then .error .ioFailure
    else if key ∈ at_.failPut then .error .ioFailure
    else .ok { at_ with
      bucket := some (assocStore b key data),
      mem := assocStore at_.mem key data }

/-- Load: reads the in-memory map only. -/
def attributes.Load {α : Type} (at_ : attributes α) (key : String) : Option α :=
  assocLoad at_.mem key

/-- Delete: db.Update erroring with ErrAttBucketNotFound when the
bucket is absent, otherwise deleting the key; the in-memory entry is
removed only after the transaction commits. -/
def attributes.Delete {α : Type} (at_ : attributes α) (key : String) :
    Except RefluxError (attributes α) :=
  match at_.bucket with
  | none => .error .attBucketNotFound
  | some b =>
    if at_.failTx then .error .ioFailure
    else .ok { at_ with
      bucket := some (assocDelete b key),
      mem := assocDelete at_.mem key }

/-- Exists: presence check on the in-memory map. -/
def attributes.Exists {α : Type} (at_ : attributes α) (key : String) : Bool :=
  (assocLoad at_.mem key).isSome

/-- GetSlice: collects all in-memory values; never errors, an empty
map yields the empty slice. -/
def attributes.GetSlice {α : Type} (at_ : attributes α) :
    Except RefluxError (List α) :=
  .ok (assocValues at_.mem)

/-- syncAttribute: loads the in-memory value for the key and re-stores
it through StoreOrUpdate; errors when the key is not in the map. -/
def attributes.syncAttribute {α : Type} (at_ : attributes α) (key : String) :
    Except RefluxError (attributes α) :=
  match assocLoad at_.mem key with
  | none => .error (.keyNotFound key)
  | some v => at_.StoreOrUpdate key v

/-- The Range loop inside attributes.sync: a syncAttribute error stops
the iteration but the closure-local error value is discarded, exactly
as in the Go source. -/
def attributes.syncRange {α : Type} : attributes α → List (String × α) → attributes α
  | at_, [] => at_
  | at_, (k, _) :: rest =>
    match at_.syncAttribute k with
    | .error _ => at_
    | .ok at₁ => attributes.syncRange at₁ rest

/-- sync: ranges over the in-memory map re-storing every entry, then
returns the result of the store-wide flush alone. -/
def attributes.sync {α : Type} (at_ : attributes α) :
    Option RefluxError × attributes α :=
  let at₁ := at_.syncRange at_.mem
  if at₁.failDbSync then (some .ioFailure, at₁) else (none, at₁)

/-! ### ServerInfo and the TransferManager -/

/-- ServerInfo: address, port and user of the remote server. -/
structure ServerInfo where
  address : String
  port : Int
  user : String
deriving DecidableEq, Repr

/-- validate: the two address gates of the source (net/url parsing and
address resolution) are external collaborators, abstracted into one
pass/fail oracle addrOk; then the port range and non-empty user are
checked in the order of the source. -/
def ServerInfo.validate (addrOk : String → Bool) (si : ServerInfo) :
    Option RefluxError :=
  if ¬ addrOk si.address then some .invalidAddressFormat
  else if si.port < 0 ∨ 65535 < si.port then some (.invalidPort si.port)
  else if si.user = "" then some .emptyUser
  else none

/-- TransferManager state: the resume flag, the two registries, the
Server bucket with its single Info key, and the in-memory serverInfo
field. -/
structure TransferManager (α : Type) where
  preexisting : Bool
  files : fileMetadataMap
  attrs : attributes α
  serverB : Option (Option ServerInfo)
  serverInfo : Option ServerInfo
deriving DecidableEq, Repr

/-- The persisted content of the lock file: the three buckets of the
BoltDB database (each absent until created). -/
structure DBContent (α : Type) where
  filesB : Option (List (String × FileMetadata))
  serverB : Option (Option ServerInfo)
  addlB : Option (List (String × α))
deriving DecidableEq, Repr

/-- GetServerInfo: returns the in-memory server info, or the
ErrServerInfoNotSet error when it was never set. -/
def TransferManager.GetServerInfo {α : Type} (tm : TransferManager α) :
    Except RefluxError ServerInfo :=
  match tm.serverInfo with
  | none => .error .serverInfoNotSet
  | some si => .ok si

/-- StoreOrUpdateServerInfo: validates first and returns the
validation error without touching the store; on success writes the
encoded info under the Info key of the Server bucket (created if
absent) and only then updates the in-memory field. -/
def TransferManager.StoreOrUpdateServerInfo {α : Type} (addrOk : String → Bool)
    (tm : TransferManager α) (info : ServerInfo) :
    Except RefluxError (TransferManager α) :=
  match info.validate addrOk with
  | some e => .error e
  | none => .ok { tm with serverB := some (some info), serverInfo := some info }

/-- Folding bucket entries into an in-memory map with Store, as the
ForEach body of the two loadAll functions does. -/
def loadFold {β : Type} (acc : List (String × β)) (entries : List (String × β)) :
    List (String × β) :=
  entries.foldl (fun m p => assocStore m p.1 p.2) acc

/-- fileMetadataMap.loadAll: a nil Files bucket is a silent no-op,
otherwise every decoded entry is stored into the in-memory map. -/
def fileMetadataMap.loadAll (fmm : fileMetadataMap) : fileMetadataMap :=
  match fmm.bucket with
  | none => fmm
  | some entries => { fmm with mem := loadFold fmm.mem entries }

/-- attributes.loadAll: errors with ErrAttBucketNotFound when the
AdditionalData bucket is absent, otherwise stores every decoded entry
into the in-memory map. -/
def attributes.loadAll {α : Type} (at_ : attributes α) :
    Except RefluxError (attributes α) :=
  match at_.bucket with
  | none => .error .attBucketNotFound
  | some entries => .ok { at_ with mem := loadFold at_.mem entries }

/-- loadServerInfo: a nil Server bucket or a missing Info key leaves
the serverInfo field untouched; otherwise the decoded value is set. -/
def TransferManager.loadServerInfo {α : Type} (tm : TransferManager α) :
    TransferManager α :=
  match tm.serverB with
  | none => tm
  | some none => tm
  | some (some si) => { tm with serverInfo := some si }

/-- loadExistingData: one read transaction running Files.loadAll, then
Attributes.loadAll, then loadServerInfo, each error aborting. -/
def TransferManager.loadExistingData {α : Type} (tm : TransferManager α) :
    Except RefluxError (TransferManager α) :=
  let tm₁ := { tm with files := tm.files.loadAll }
  match tm₁.attrs.loadAll with
  | .error e => .error e
  | .ok a => .ok (TransferManager.loadServerInfo { tm₁ with attrs := a })

/-- NewTransferManager: records pre-existence of the lock file, opens
the database (an absent file opens empty), creates the three buckets
in one committed update transaction (failInit injects an I/O failure
of that transaction), and when the lock file pre-existed runs the
recovery load before returning. -/
def NewTransferManager {α : Type} (disk : Option (DBContent α)) (failInit : Bool) :
    Except RefluxError (TransferManager α) :=
  let preexisting := disk.isSome
  let c := disk.getD ⟨none, none, none⟩
  if failInit then .error .ioFailure
  else
    let tm₀ : TransferManager α :=
      { preexisting := preexisting
        files := { mem := [], bucket := some (c.filesB.getD []), failPut := [],
                   failTx := false, failDbSync := false, clock := 1 }
        attrs := { mem := [], bucket := some (c.addlB.getD []), failPut := [],
                   failTx := false, failDbSync := false }
        serverB := some (c.serverB.getD none)
        serverInfo := none }
    if preexisting then tm₀.loadExistingData else .ok tm₀

/-- IsPreexisting: whether the lock file already existed. -/
def TransferManager.IsPreexisting {α : Type} (tm : TransferManager α) : Bool :=
  tm.preexisting

/-- The database content a closed manager leaves on disk; Close syncs
and closes the store but keeps the lock file in place. -/
def TransferManager.CloseDisk {α : Type} (tm : TransferManager α) :
    Option (DBContent α) :=
  some ⟨tm.files.bucket, tm.serverB, tm.attrs.bucket⟩

/-- Storing a batch of records through the transfer registry, first to
last, stopping at the first error. -/
def storeAllFiles (fmm : fileMetadataMap) : List FileMetadata →
    Except RefluxError fileMetadataMap
  | [] => .ok fmm
  | r :: rest =>
    match fmm.StoreOrUpdate r with
    | .error e => .error e
    | .ok fmm₁ => storeAllFiles fmm₁ rest

/-! ### Helper lemmas on the registry operations -/

/-- The record UpdateStatus builds before storing it back: status and
byte count always overwritten, error text copied only when an error is
supplied, start or end time stamped by status. -/
def updatedMeta (m : FileMetadata) (st : TransferStatus) (n : Int) (e : Option String)
    (clk : Nat) : FileMetadata :=
  let m₁ := { m with status := st, bytesTransferred := n }
  let m₂ := match e with
    | some msg => { m₁ with errorMsg := msg }
    | none => m₁
  if st = .inProgress then { m₂ with timeStart := clk }
  else if st = .completed ∨ st = .failed then { m₂ with timeEnd := clk }
  else m₂

/-- The clock value after one UpdateStatus call. -/
def updatedClock (clk : Nat) (st : TransferStatus) : Nat :=
  if st = .inProgress then clk + 1
  else if st = .completed ∨ st = .failed then clk + 1
  else clk

theorem updatedMeta_sourcePath (m : FileMetadata) (st : TransferStatus) (n : Int)
    (e : Option String) (clk : Nat) : (updatedMeta m st n e clk).sourcePath = m.sourcePath := by
  cases st <;> cases e <;> simp [updatedMeta]

theorem updatedMeta_targetPath (m : FileMetadata) (st : TransferStatus) (n : Int)
    (e : Option String) (clk : Nat) : (updatedMeta m st n e clk).targetPath = m.targetPath := by
  cases st <;> cases e <;> simp [updatedMeta]

theorem updatedMeta_status (m : FileMetadata) (st : TransferStatus) (n : Int)
    (e : Option String) (clk : Nat) : (updatedMeta m st n e clk).status = st := by
  cases st <;> cases e <;> simp [updatedMeta]

theorem updatedMeta_bytes (m : FileMetadata) (st : TransferStatus) (n : Int)
    (e : Option String) (clk : Nat) : (updatedMeta m st n e clk).bytesTransferred = n := by
  cases st <;> cases e <;> simp [updatedMeta]

theorem updatedMeta_errorMsg_none (m : FileMetadata) (st : TransferStatus) (n : Int)
    (clk : Nat) : (updatedMeta m st n none clk).errorMsg = m.errorMsg := by
  cases st <;> simp [updatedMeta]

theorem updatedMeta_errorMsg_some (m : FileMetadata) (st : TransferStatus) (n : Int)
    (msg : String) (clk : Nat) : (updatedMeta m st n (some msg) clk).errorMsg = msg := by
  cases st <;> simp [updatedMeta]

theorem updatedMeta_timeStart_inProgress (m : FileMetadata) (n : Int)
    (e : Option String) (clk : Nat) :
    (updatedMeta m .inProgress n e clk).timeStart = clk := by
  cases e <;> simp [updatedMeta]

theorem updatedMeta_timeEnd_completed (m : FileMetadata) (n : Int)
    (e : Option String) (clk : Nat) :
    (updatedMeta m .completed n e clk).timeEnd = clk := by
  cases e <;> simp [updatedMeta]

theorem updatedMeta_timeEnd_failed (m : FileMetadata) (n : Int)
    (e : Option String) (clk : Nat) :
    (updatedMeta m .failed n e clk).timeEnd = clk := by
  cases e <;> simp [updatedMeta]

/-- StoreOrUpdate succeeds exactly when the transaction is not failed
for this key, and then performs the write-through. -/
theorem storeOrUpdate_eq (s : fileMetadataMap) (m : FileMetadata)
    (hft : s.failTx = false) (hfp : m.sourcePath ∉ s.failPut) :
    s.StoreOrUpdate m = .ok { s with
      bucket := some (assocStore (s.bucket.getD []) m.sourcePath m),
      mem := assocStore s.mem m.sourcePath m } := by
  simp [fileMetadataMap.StoreOrUpdate, hft, hfp]

/-- Inversion for a successful StoreOrUpdate. -/
theorem storeOrUpdate_ok_inv (s : fileMetadataMap) (m : FileMetadata)
    (s' : fileMetadataMap) (h : s.StoreOrUpdate m = .ok s') :
    s.failTx = false ∧ m.sourcePath ∉ s.failPut ∧
    s' = { s with
      bucket := some (assocStore (s.bucket.getD []) m.sourcePath m),
      mem := assocStore s.mem m.sourcePath m } := by
  unfold fileMetadataMap.StoreOrUpdate at h
  split at h
  · exact absurd h (by simp)
  · split at h
    · exact absurd h (by simp)
    · next hft hfp =>
      refine ⟨by simpa using hft, hfp, ?_⟩
      injection h with h
      exact h.symm

/-- One successful UpdateStatus call, in closed form. -/
theorem updateStatus_eq (s : fileMetadataMap) (k : String) (st : TransferStatus)
    (n : Int) (e : Option String) (m : FileMetadata)
    (hm : assocLoad s.mem k = some m)
    (hft : s.failTx = false) (hfp : m.sourcePath ∉ s.failPut) :
    s.UpdateStatus k st n e = .ok { s with
      clock := updatedClock s.clock st,
      bucket := some (assocStore (s.bucket.getD []) m.sourcePath (updatedMeta m st n e s.clock)),
      mem := assocStore s.mem m.sourcePath (updatedMeta m st n e s.clock) } := by
  unfold fileMetadataMap.UpdateStatus
  rw [hm]
  by_cases h₁ : st = .inProgress
  · cases e <;>
      simp [h₁, updatedMeta, updatedClock, fileMetadataMap.StoreOrUpdate, hft, hfp]
  · by_cases h₂ : st = .completed ∨ st = .failed
    · cases e <;>
        simp [h₁, h₂, updatedMeta, updatedClock, fileMetadataMap.StoreOrUpdate, hft, hfp]
    · cases e <;>
        simp [h₁, h₂, updatedMeta, updatedClock, fileMetadataMap.StoreOrUpdate, hft, hfp]

/-- Inversion for a successful UpdateStatus: the loaded record exists
and the stored record is updatedMeta of it. -/
theorem updateStatus_ok_inv (s : fileMetadataMap) (k : String) (st : TransferStatus)
    (n : Int) (e : Option String) (s' : fileMetadataMap)
    (h : s.UpdateStatus k st n e = .ok s') :
    ∃ m, assocLoad s.mem k = some m ∧
      s'.mem = assocStore s.mem m.sourcePath (updatedMeta m st n e s.clock) := by
  unfold fileMetadataMap.UpdateStatus at h
  cases hm : assocLoad s.mem k with
  | none => rw [hm] at h; exact absurd h (by simp)
  | some m =>
    rw [hm] at h
    dsimp only at h
    refine ⟨m, rfl, ?_⟩
    by_cases h₁ : st = .inProgress
    · rw [if_pos h₁] at h
      obtain ⟨-, -, h₃⟩ := storeOrUpdate_ok_inv _ _ _ h
      subst h₃
      cases e <;> simp [updatedMeta, h₁]
    · rw [if_neg h₁] at h
      by_cases h₂ : st = .completed ∨ st = .failed
      · rw [if_pos h₂] at h
        obtain ⟨-, -, h₃⟩ := storeOrUpdate_ok_inv _ _ _ h
        subst h₃
        cases e <;> simp [updatedMeta, h₁, h₂]
      · rw [if_neg h₂] at h
        obtain ⟨-, -, h₃⟩ := storeOrUpdate_ok_inv _ _ _ h
        subst h₃
        cases e <;> simp [updatedMeta, h₁, h₂]

/-! ### Claim C8 -/

/-- Claim C8: for every key k and record r, if storeOrUpdate(k, r)
succeeds then an immediately following load(k) on the same registry
returns (r, true) — for the transfer registry the key is the record
source path, for the attributes registry load returns the stored
payload. -/
theorem c8_store_load_roundtrip :
    (∀ (s : fileMetadataMap) (m : FileMetadata) (s' : fileMetadataMap),
      s.StoreOrUpdate m = .ok s' → s'.Load m.sourcePath = (m, true))
  ∧ (∀ (α : Type) (s : attributes α) (k : String) (v : α) (s' : attributes α),
      s.StoreOrUpdate k v = .ok s' → s'.Load k = some v) := by
  constructor
  · intro s m s' h
    obtain ⟨-, -, h₃⟩ := storeOrUpdate_ok_inv _ _ _ h
    subst h₃
    simp [fileMetadataMap.Load, assocLoad_store_self]
  · intro α s k v s' h
    unfold attributes.StoreOrUpdate at h
    split at h
    · exact absurd h (by simp)
    · split at h
      · exact absurd h (by simp)
      · split at h
        · exact absurd h (by simp)
        · injection h with h
          subst h
          simp [attributes.Load, assocLoad_store_self]

def w8fmm : fileMetadataMap :=
  { mem := [], bucket := none, failPut := [], failTx := false,
    failDbSync := false, clock := 1 }

def w8meta : FileMetadata :=
  { FileMetadata.empty with sourcePath := "/a", targetPath := "/b" }

def w8fmm' : fileMetadataMap :=
  { w8fmm with mem := [("/a", w8meta)], bucket := some [("/a", w8meta)] }

def w8att : attributes Nat :=
  { mem := [], bucket := some [], failPut := [], failTx := false, failDbSync := false }

def w8att' : attributes Nat :=
  { w8att with mem := [("k", 5)], bucket := some [("k", 5)] }

/-- Witness for C8 at concrete inputs. -/
theorem c8_store_load_roundtrip_witness :
    w8fmm.StoreOrUpdate w8meta = .ok w8fmm'
  ∧ w8fmm'.Load "/a" = (w8meta, true)
  ∧ w8att.StoreOrUpdate "k" 5 = .ok w8att'
  ∧ w8att'.Load "k" = some 5 :=
  ⟨rfl, c8_store_load_roundtrip.1 w8fmm w8meta w8fmm' rfl,
   rfl, c8_store_load_roundtrip.2 Nat w8att "k" 5 w8att' rfl⟩

/-! ### Claim C4 -/

def c4attEmpty : attributes Nat :=
  { mem := [], bucket := some [], failPut := [], failTx := false, failDbSync := false }

/-- Claim C4 counterexample: the attributes registry GetSlice on an
empty in-memory map returns an empty snapshot with no error, instead
of failing with a NotFoundError-class error as the claim states for
every registry. -/
theorem c4_getAll_counterexample :
    c4attEmpty.mem = [] ∧ c4attEmpty.GetSlice = .ok [] :=
  ⟨rfl, rfl⟩

/-- Claim C4 as amended: the transfer registry GetSlice fails with the
no-files-found error exactly when its in-memory map is empty and
otherwise returns a snapshot of all in-memory records; the attributes
registry GetSlice never errors and returns the possibly empty snapshot
of all in-memory values. -/
theorem c4_getAll_amended :
    (∀ s : fileMetadataMap, s.mem = [] → s.GetSlice = .error .noFilesFound)
  ∧ (∀ s : fileMetadataMap, s.mem ≠ [] → s.GetSlice = .ok (assocValues s.mem))
  ∧ (∀ (α : Type) (s : attributes α), s.GetSlice = .ok (assocValues s.mem)) := by
  refine ⟨?_, ?_, ?_⟩
  · intro s h
    simp [fileMetadataMap.GetSlice, h, assocValues]
  · intro s h
    simp [fileMetadataMap.GetSlice, assocValues, h]
  · intro α s
    rfl

def c4fmmEmpty : fileMetadataMap :=
  { mem := [], bucket := some [], failPut := [], failTx := false,
    failDbSync := false, clock := 1 }

def c4meta : FileMetadata :=
  { FileMetadata.empty with sourcePath := "/a" }

def c4fmmOne : fileMetadataMap :=
  { c4fmmEmpty with mem := [("/a", c4meta)], bucket := some [("/a", c4meta)] }

/-- Witness for the amended C4 at concrete inputs. -/
theorem c4_getAll_amended_witness :
    c4fmmEmpty.GetSlice = .error .noFilesFound
  ∧ c4fmmOne.GetSlice = .ok [c4meta]
  ∧ c4attEmpty.GetSlice = .ok [] :=
  ⟨c4_getAll_amended.1 c4fmmEmpty rfl,
   c4_getAll_amended.2.1 c4fmmOne (by simp [c4fmmOne]),
   c4_getAll_amended.2.2 Nat c4attEmpty⟩

/-! ### Claim C5 -/

def c5attNoBucket : attributes Nat :=
  { mem := [("k", 7)], bucket := none, failPut := [], failTx := false,
    failDbSync := false }

/-- Claim C5 counterexample: the attributes registry Delete fails with
the bucket-not-found error when its namespace is absent from the
store, instead of succeeding as a no-op as the claim states for every
registry. -/
theorem c5_delete_counterexample :
    c5attNoBucket.Delete "k" = .error .attBucketNotFound :=
  rfl

/-- Claim C5 as amended: both registries remove the key from the
durable namespace inside the update transaction and remove it from
the in-memory map only when that transaction succeeds (a failed
transaction surfaces an error and leaves memory unchanged). The
transfer registry treats an absent namespace as a silent no-op; the
attributes registry instead fails with the bucket-not-found error when
its namespace is absent. -/
theorem c5_delete_amended :
    (∀ (s : fileMetadataMap) (k : String), s.failTx = false →
      s.Delete k = .ok { s with
        bucket := s.bucket.map (fun b => assocDelete b k),
        mem := assocDelete s.mem k })
  ∧ (∀ (s : fileMetadataMap) (k : String), s.failTx = true →
      s.Delete k = .error .ioFailure)
  ∧ (∀ (α : Type) (s : attributes α) (k : String), s.bucket = none →
      s.Delete k = .error .attBucketNotFound)
  ∧ (∀ (α : Type) (s : attributes α) (b : List (String × α)) (k : String),
      s.bucket = some b → s.failTx = false →
      s.Delete k = .ok { s with
        bucket := some (assocDelete b k), mem := assocDelete s.mem k })
  ∧ (∀ (α : Type) (s : attributes α) (b : List (String × α)) (k : String),
      s.bucket = some b → s.failTx = true → s.Delete k = .error .ioFailure) := by
  refine ⟨?_, ?_, ?_, ?_, ?_⟩
  · intro s k h
    simp [fileMetadataMap.Delete, h]
  · intro s k h
    simp [fileMetadataMap.Delete, h]
  · intro α s k h
    simp [attributes.Delete, h]
  · intro α s b k hb h
    simp [attributes.Delete, hb, h]
  · intro α s b k hb h
    simp [attributes.Delete, hb, h]

def c5fmm : fileMetadataMap :=
  { mem := [("/a", c4meta)], bucket := some [("/a", c4meta)], failPut := [],
    failTx := false, failDbSync := false, clock := 1 }

def c5fmmTx : fileMetadataMap := { c5fmm with failTx := true }

def c5att : attributes Nat :=
  { mem := [("k", 7)], bucket := some [("k", 7)], failPut := [], failTx := false,
    failDbSync := false }

def c5attTx : attributes Nat := { c5att with failTx := true }

/-- Witness for the amended C5 at concrete inputs. -/
theorem c5_delete_amended_witness :
    c5fmm.Delete "/a" = .ok { c5fmm with bucket := some [], mem := [] }
  ∧ c5fmmTx.Delete "/a" = .error .ioFailure
  ∧ c5attNoBucket.Delete "k" = .error .attBucketNotFound
  ∧ c5att.Delete "k" = .ok { c5att with bucket := some [], mem := [] }
  ∧ c5attTx.Delete "k" = .error .ioFailure :=
  ⟨c5_delete_amended.1 c5fmm "/a" rfl,
   c5_delete_amended.2.1 c5fmmTx "/a" rfl,
   c5_delete_amended.2.2.1 Nat c5attNoBucket "k" rfl,
   c5_delete_amended.2.2.2.1 Nat c5att [("k", 7)] "k" rfl rfl,
   c5_delete_amended.2.2.2.2 Nat c5attTx [("k", 7)] "k" rfl rfl⟩

/-! ### Claim C2 -/

def c2meta : FileMetadata :=
  { FileMetadata.empty with sourcePath := "a", targetPath := "b" }

def c2fmm : fileMetadataMap :=
  { mem := [("a", c2meta)], bucket := some [("a", c2meta)], failPut := ["a"],
    failTx := false, failDbSync := false, clock := 1 }

def c2att : attributes Nat :=
  { mem := [("k", 7)], bucket := some [("k", 7)], failPut := ["k"],
    failTx := false, failDbSync := false }

/-- Claim C2 is a code bug: in both registries the per-key durable
re-write inside sync can fail (here the put of the only key fails with
an injected I/O error, as syncFile and syncAttribute show), yet sync
returns no error, because the error captured inside the Range closure
is discarded and only the result of the store-wide flush is returned.
The spec requires such a failure to be surfaced to the caller. -/
theorem c2_sync_swallows_put_failure :
    c2fmm.syncFile "a" = .error .ioFailure
  ∧ c2fmm.sync = (none, c2fmm)
  ∧ c2att.syncAttribute "k" = .error .ioFailure
  ∧ c2att.sync = (none, c2att) :=
  ⟨rfl, rfl, rfl, rfl⟩

/-! ### Claim C6 -/

def c6meta : FileMetadata :=
  { FileMetadata.empty with sourcePath := "a", targetPath := "b" }

def c6s0 : fileMetadataMap :=
  { mem := [("a", c6meta)], bucket := some [("a", c6meta)], failPut := [],
    failTx := false, failDbSync := false, clock := 1 }

def c6m1 : FileMetadata :=
  { sourcePath := "a", targetPath := "b", status := .failed,
    bytesTransferred := 0, timeStart := 0, timeEnd := 1, errorMsg := "boom" }

def c6s1 : fileMetadataMap :=
  { mem := [("a", c6m1)], bucket := some [("a", c6m1)], failPut := [],
    failTx := false, failDbSync := false, clock := 2 }

def c6m2 : FileMetadata :=
  { sourcePath := "a", targetPath := "b", status := .completed,
    bytesTransferred := 5, timeStart := 0, timeEnd := 2, errorMsg := "boom" }

def c6s2 : fileMetadataMap :=
  { mem := [("a", c6m2)], bucket := some [("a", c6m2)], failPut := [],
    failTx := false, failDbSync := false, clock := 3 }

/-- Claim C6 counterexample: setSuccess after a prior setError on the
same key leaves the record Completed while still carrying the earlier
error message, so a record whose status is not Failed can carry an
error message, contrary to the claim. -/
theorem c6_errormsg_counterexample :
    c6s0.SetError "a" (some "boom") = .ok c6s1
  ∧ c6s1.SetSuccess "a" 5 = .ok c6s2
  ∧ (c6s2.Load "a").1.status ≠ .failed
  ∧ (c6s2.Load "a").1.errorMsg = "boom" :=
  ⟨rfl, rfl, by decide, rfl⟩

/-- Claim C6 as amended: the error-message field is assigned only when
an update supplies an error, which the status operations do exactly on
entering Failed; but it is never cleared by later transitions, so
after setSuccess following a prior setError the record has status
Completed while still carrying the earlier error message. -/
theorem c6_errormsg_amended :
    (∀ (s : fileMetadataMap) (k : String) (st : TransferStatus) (n : Int)
       (m : FileMetadata) (s' : fileMetadataMap),
       assocLoad s.mem k = some m →
       s.UpdateStatus k st n none = .ok s' →
       (s'.Load m.sourcePath).1.errorMsg = m.errorMsg)
  ∧ (∀ (s : fileMetadataMap) (k : String) (m : FileMetadata) (e : String) (n : Int)
       (s₁ s₂ : fileMetadataMap),
       assocLoad s.mem k = some m → m.sourcePath = k →
       s.SetError k (some e) = .ok s₁ → s₁.SetSuccess k n = .ok s₂ →
       (s₂.Load k).1.status = .completed ∧ (s₂.Load k).1.errorMsg = e) := by
  constructor
  · intro s k st n m s' hm h
    obtain ⟨m', hm', hmem⟩ := updateStatus_ok_inv _ _ _ _ _ _ h
    rw [hm] at hm'
    injection hm' with hm'
    subst hm'
    simp [fileMetadataMap.Load, hmem, assocLoad_store_self, updatedMeta_errorMsg_none]
  · intro s k m e n s₁ s₂ hm hsp h₁ h₂
    obtain ⟨m', hm', hmem₁⟩ := updateStatus_ok_inv _ _ _ _ _ _ h₁
    rw [hm] at hm'
    injection hm' with hm'
    subst hm'
    obtain ⟨m₁, hm₁, hmem₂⟩ := updateStatus_ok_inv _ _ _ _ _ _ h₂
    rw [hmem₁, hsp, assocLoad_store_self] at hm₁
    injection hm₁ with hm₁
    subst hm₁
    have hsp₁ : (updatedMeta m .failed 0 (some e) s.clock).sourcePath = k := by
      rw [updatedMeta_sourcePath, hsp]
    rw [hsp₁] at hmem₂
    constructor
    · simp [fileMetadataMap.Load, hmem₂, assocLoad_store_self, updatedMeta_status]
    · simp [fileMetadataMap.Load, hmem₂, assocLoad_store_self,
        updatedMeta_errorMsg_none, updatedMeta_errorMsg_some]

/-- Witness for the amended C6 at concrete inputs. -/
theorem c6_errormsg_amended_witness :
    (c6s1.Load "a").1.errorMsg = c6m1.errorMsg
  ∧ (c6s2.Load "a").1.status = .completed ∧ (c6s2.Load "a").1.errorMsg = "boom" :=
  ⟨c6_errormsg_amended.1 c6s1 "a" .completed 5 c6m1 c6s2 rfl rfl,
   c6_errormsg_amended.2 c6s0 "a" c6meta "boom" 5 c6s1 c6s2 rfl rfl rfl rfl⟩

/-! ### Claim C7 -/

/-- Claim C7: for a key present in the transfer registry, with the
durable write succeeding, Start makes the record InProgress with its
start time set; SetSuccess makes it Completed with the byte count and
end time set; SetError with a non-nil error makes it Failed carrying
the error text, with the end time set. -/
theorem c7_status_transitions (s : fileMetadataMap) (k : String) (m : FileMetadata)
    (n : Int) (e : String)
    (hm : assocLoad s.mem k = some m) (hsp : m.sourcePath = k)
    (hfp : k ∉ s.failPut) (hft : s.failTx = false) (hclk : 0 < s.clock) :
    (∃ s₁, s.Start k = .ok s₁
        ∧ (s₁.Load k).2 = true
        ∧ (s₁.Load k).1.status = .inProgress
        ∧ (s₁.Load k).1.timeStart ≠ 0)
  ∧ (∃ s₂, s.SetSuccess k n = .ok s₂
        ∧ (s₂.Load k).2 = true
        ∧ (s₂.Load k).1.status = .completed
        ∧ (s₂.Load k).1.bytesTransferred = n
        ∧ (s₂.Load k).1.timeEnd ≠ 0)
  ∧ (∃ s₃, s.SetError k (some e) = .ok s₃
        ∧ (s₃.Load k).2 = true
        ∧ (s₃.Load k).1.status = .failed
        ∧ (s₃.Load k).1.errorMsg = e
        ∧ (s₃.Load k).1.timeEnd ≠ 0) := by
  have hfp' : m.sourcePath ∉ s.failPut := by rw [hsp]; exact hfp
  refine ⟨⟨_, updateStatus_eq s k .inProgress 0 none m hm hft hfp', ?_, ?_, ?_⟩,
          ⟨_, updateStatus_eq s k .completed n none m hm hft hfp', ?_, ?_, ?_, ?_⟩,
          ⟨_, updateStatus_eq s k .failed 0 (some e) m hm hft hfp', ?_, ?_, ?_, ?_⟩⟩ <;>
    simp [fileMetadataMap.Load, hsp, assocLoad_store_self, updatedMeta_status,
      updatedMeta_bytes, updatedMeta_errorMsg_some,
      updatedMeta_timeStart_inProgress, updatedMeta_timeEnd_completed,
      updatedMeta_timeEnd_failed, Nat.pos_iff_ne_zero.mp hclk]

def c7meta : FileMetadata :=
  { FileMetadata.empty with sourcePath := "a", targetPath := "b" }

def c7s : fileMetadataMap :=
  { mem := [("a", c7meta)], bucket := some [("a", c7meta)], failPut := [],
    failTx := false, failDbSync := false, clock := 1 }

/-- Witness for C7 at concrete inputs. -/
theorem c7_status_transitions_witness :
    assocLoad c7s.mem "a" = some c7meta ∧ 0 < c7s.clock ∧
    ((∃ s₁, c7s.Start "a" = .ok s₁
        ∧ (s₁.Load "a").2 = true
        ∧ (s₁.Load "a").1.status = .inProgress
        ∧ (s₁.Load "a").1.timeStart ≠ 0)
    ∧ (∃ s₂, c7s.SetSuccess "a" 9 = .ok s₂
        ∧ (s₂.Load "a").2 = true
        ∧ (s₂.Load "a").1.status = .completed
        ∧ (s₂.Load "a").1.bytesTransferred = 9
        ∧ (s₂.Load "a").1.timeEnd ≠ 0)
    ∧ (∃ s₃, c7s.SetError "a" (some "oops") = .ok s₃
        ∧ (s₃.Load "a").2 = true
        ∧ (s₃.Load "a").1.status = .failed
        ∧ (s₃.Load "a").1.errorMsg = "oops"
        ∧ (s₃.Load "a").1.timeEnd ≠ 0)) :=
  ⟨rfl, by decide,
   c7_status_transitions c7s "a" c7meta 9 "oops" rfl rfl (by decide) rfl (by decide)⟩

/-! ### Claim C3 -/

/-- Claim C3: in Operate, a record whose transfer callback returns an
error is marked Failed with the returned byte count and the iteration
continues with the remaining records; but when a per-record status
update itself fails, for example because the key is absent from the
registry, the whole traversal aborts at once and Operate returns that
error, leaving the state as it was at the abort point with no
post-traversal sync. -/
theorem c3_operate_error_paths :
    (∀ (s : fileMetadataMap) (t : Transfer) (k : String) (m : FileMetadata)
       (rest : List (String × FileMetadata)) (n : Int) (e : String),
       s.mem = (k, m) :: rest → m.sourcePath = k →
       s.failTx = false → k ∉ s.failPut →
       t m.sourcePath m.targetPath = (n, some e) →
       ∃ s₂, s.operateRange t s.mem = fileMetadataMap.operateRange s₂ t rest
           ∧ (s₂.Load k).2 = true
           ∧ (s₂.Load k).1.status = .failed
           ∧ (s₂.Load k).1.bytesTransferred = n
           ∧ (s₂.Load k).1.errorMsg = e)
  ∧ (∀ (s : fileMetadataMap) (t : Transfer) (k : String) (m : FileMetadata)
       (rest : List (String × FileMetadata)),
       s.mem = (k, m) :: rest → assocLoad s.mem m.sourcePath = none →
       s.Operate t = (.error (.keyNotFound m.sourcePath), s)) := by
  constructor
  · intro s t k m rest n e hmem hsp hft hfp ht
    have hm : assocLoad s.mem m.sourcePath = some m := by
      rw [hmem, hsp]
      simp [assocLoad]
    have hfp' : m.sourcePath ∉ s.failPut := by rw [hsp]; exact hfp
    have h₁ := updateStatus_eq s m.sourcePath .inProgress 0 none m hm hft hfp'
    set m₁ := updatedMeta m .inProgress 0 none s.clock with hm₁def
    set s₁ : fileMetadataMap := { s with
      clock := updatedClock s.clock .inProgress,
      bucket := some (assocStore (s.bucket.getD []) m.sourcePath m₁),
      mem := assocStore s.mem m.sourcePath m₁ } with hs₁def
    have hm₁ : assocLoad s₁.mem m.sourcePath = some m₁ := by
      rw [hs₁def]
      exact assocLoad_store_self _ _ _
    have hfp₁ : m₁.sourcePath ∉ s₁.failPut := by
      rw [hm₁def, updatedMeta_sourcePath, hs₁def]
      exact hfp'
    have hft₁ : s₁.failTx = false := hft
    have h₂ := updateStatus_eq s₁ m.sourcePath .failed n (some e) m₁ hm₁ hft₁ hfp₁
    set m₂ := updatedMeta m₁ .failed n (some e) s₁.clock with hm₂def
    have hspm₁ : m₁.sourcePath = k := by
      rw [hm₁def, updatedMeta_sourcePath, hsp]
    obtain ⟨s₂, hs₂def⟩ : ∃ s₂ : fileMetadataMap, s₂ = { mem := assocStore s₁.mem m₁.sourcePath m₂, bucket := some (assocStore (s₁.bucket.getD []) m₁.sourcePath m₂), failPut := s₁.failPut, failTx := s₁.failTx, failDbSync := s₁.failDbSync, clock := updatedClock s₁.clock .failed } := ⟨_, rfl⟩
    rw [← hs₂def] at h₂
    have hstep : fileMetadataMap.operateRange s t ((k, m) :: rest) =
        fileMetadataMap.operateRange s₂ t rest := by
      conv_lhs => unfold fileMetadataMap.operateRange
      rw [h₁]
      dsimp only
      rw [ht]
      dsimp only
      rw [h₂]
    refine ⟨s₂, ?_, ?_, ?_, ?_, ?_⟩
    · rw [hmem]
      exact hstep
    · simp [hs₂def, fileMetadataMap.Load, hspm₁, assocLoad_store_self]
    · simp [hs₂def, fileMetadataMap.Load, hspm₁, assocLoad_store_self, hm₂def,
        updatedMeta_status]
    · simp [hs₂def, fileMetadataMap.Load, hspm₁, assocLoad_store_self, hm₂def,
        updatedMeta_bytes]
    · simp [hs₂def, fileMetadataMap.Load, hspm₁, assocLoad_store_self, hm₂def,
        updatedMeta_errorMsg_some]
  · intro s t k m rest hmem hnone
    unfold fileMetadataMap.Operate
    conv_lhs => rw [hmem]
    unfold fileMetadataMap.operateRange fileMetadataMap.UpdateStatus
    rw [hnone]

def c3meta : FileMetadata :=
  { FileMetadata.empty with sourcePath := "a", targetPath := "b" }

def c3s : fileMetadataMap :=
  { mem := [("a", c3meta)], bucket := some [("a", c3meta)], failPut := [],
    failTx := false, failDbSync := false, clock := 1 }

def c3t : Transfer := fun _ _ => (7, some "copy failed")

def c3badMeta : FileMetadata :=
  { FileMetadata.empty with sourcePath := "gone", targetPath := "b" }

def c3bad : fileMetadataMap :=
  { mem := [("a", c3badMeta)], bucket := some [("a", c3badMeta)], failPut := [],
    failTx := false, failDbSync := false, clock := 1 }

/-- Witness for C3 at concrete inputs. -/
theorem c3_operate_error_paths_witness :
    ((∃ s₂, c3s.operateRange c3t c3s.mem = fileMetadataMap.operateRange s₂ c3t []
        ∧ (s₂.Load "a").2 = true
        ∧ (s₂.Load "a").1.status = .failed
        ∧ (s₂.Load "a").1.bytesTransferred = 7
        ∧ (s₂.Load "a").1.errorMsg = "copy failed")
    ∧ c3bad.Operate c3t = (.error (.keyNotFound "gone"), c3bad)) :=
  ⟨c3_operate_error_paths.1 c3s c3t "a" c3meta [] 7 "copy failed"
      rfl rfl rfl (by decide) rfl,
   c3_operate_error_paths.2 c3bad c3t "a" c3badMeta [] rfl rfl⟩

/-! ### Claim C9 -/

/-- Claim C9: storeOrUpdateConnectionParams validates before
persisting; any params whose port is outside 0..65535 or whose user is
empty make the call fail with a validation error, the manager state is
not modified (the error branch returns before any durable write), and
getConnectionParams on the unchanged manager still returns the
previously stored value. -/
theorem c9_server_info_validation (α : Type) (addrOk : String → Bool)
    (tm : TransferManager α) (prev : ServerInfo) (p : ServerInfo)
    (hprev : tm.serverInfo = some prev)
    (hbad : p.port < 0 ∨ 65535 < p.port ∨ p.user = "") :
    (∃ e, TransferManager.StoreOrUpdateServerInfo addrOk tm p = .error e)
  ∧ tm.GetServerInfo = .ok prev := by
  constructor
  · unfold TransferManager.StoreOrUpdateServerInfo ServerInfo.validate
    by_cases ha : addrOk p.address
    · by_cases hp : p.port < 0 ∨ 65535 < p.port
      · exact ⟨.invalidPort p.port, by simp [ha, hp]⟩
      · have hu : p.user = "" := by
          rcases hbad with h | h | h
          · exact absurd (Or.inl h) hp
          · exact absurd (Or.inr h) hp
          · exact h
        exact ⟨.emptyUser, by simp [ha, hp, hu]⟩
    · exact ⟨.invalidAddressFormat, by simp [ha]⟩
  · simp [TransferManager.GetServerInfo, hprev]

def c9prev : ServerInfo := { address := "localhost", port := 8080, user := "admin" }

def c9bad : ServerInfo := { address := "localhost", port := 70000, user := "admin" }

def c9tm : TransferManager Nat :=
  { preexisting := false
    files := { mem := [], bucket := some [], failPut := [], failTx := false,
               failDbSync := false, clock := 1 }
    attrs := { mem := [], bucket := some [], failPut := [], failTx := false,
               failDbSync := false }
    serverB := some (some c9prev)
    serverInfo := some c9prev }

/-- Witness for C9 at concrete inputs. -/
theorem c9_server_info_validation_witness :
    c9tm.serverInfo = some c9prev
  ∧ (70000 : Int) > 65535
  ∧ ((∃ e, TransferManager.StoreOrUpdateServerInfo (fun _ => true) c9tm c9bad = .error e)
      ∧ c9tm.GetServerInfo = .ok c9prev) :=
  ⟨rfl, by decide,
   c9_server_info_validation Nat (fun _ => true) c9tm c9prev c9bad rfl
     (Or.inr (Or.inl (by decide)))⟩

/-! ### Claim C10 -/

/-- Claim C10: construction can never fail with the missing-namespace
error of the attributes loadAll, because NewTransferManager creates
all three buckets (create-if-absent) in a committed transaction before
the preexisting-data load runs; a failed bucket-creation transaction
surfaces as a persistence failure, not as the missing-bucket error. -/
theorem c10_no_missing_namespace_error (α : Type) (disk : Option (DBContent α))
    (failInit : Bool) :
    NewTransferManager disk failInit ≠ .error .attBucketNotFound := by
  unfold NewTransferManager
  cases failInit
  · cases disk with
    | none => simp
    | some c =>
      simp [TransferManager.loadExistingData, attributes.loadAll,
        fileMetadataMap.loadAll, TransferManager.loadServerInfo]
  · simp

/-- Witness for C10 at a concrete preexisting disk with no buckets. -/
theorem c10_no_missing_namespace_error_witness :
    NewTransferManager (α := Nat) (some ⟨none, none, none⟩) false ≠
      .error .attBucketNotFound :=
  c10_no_missing_namespace_error Nat (some ⟨none, none, none⟩) false

/-! ### Claim C1 -/

theorem storeAllFiles_spec : ∀ (rs : List FileMetadata) (s : fileMetadataMap),
    s.failTx = false → s.failPut = [] →
    (∀ r ∈ rs, assocLoad s.mem r.sourcePath = none) →
    (rs.map FileMetadata.sourcePath).Nodup →
    s.bucket = some s.mem →
    ∃ s', storeAllFiles s rs = .ok s'
        ∧ s'.mem = s.mem ++ rs.map (fun r => (r.sourcePath, r))
        ∧ s'.bucket = some s'.mem := by
  intro rs
  induction rs with
  | nil =>
    intro s h₁ h₂ h₃ h₄ h₅
    exact ⟨s, rfl, by simp, by rw [h₅]⟩
  | cons r rest ih =>
    intro s h₁ h₂ h₃ h₄ h₅
    have hload : assocLoad s.mem r.sourcePath = none := h₃ r (by simp)
    have hstep : s.StoreOrUpdate r = .ok { s with
        bucket := some (assocStore (s.bucket.getD []) r.sourcePath r),
        mem := assocStore s.mem r.sourcePath r } :=
      storeOrUpdate_eq s r h₁ (by rw [h₂]; simp)
    have hmem₁ : assocStore s.mem r.sourcePath r = s.mem ++ [(r.sourcePath, r)] :=
      assocStore_of_load_none _ _ _ hload
    have hbucket₁ : (s.bucket.getD []) = s.mem := by rw [h₅]; rfl
    have hnotin : r.sourcePath ∉ rest.map FileMetadata.sourcePath := by
      simp only [List.map_cons, List.nodup_cons] at h₄
      exact h₄.1
    have h₄' : (rest.map FileMetadata.sourcePath).Nodup := by
      simp only [List.map_cons, List.nodup_cons] at h₄
      exact h₄.2
    obtain ⟨s₁, hs₁⟩ : ∃ s₁ : fileMetadataMap, s₁ = { s with bucket := some (assocStore (s.bucket.getD []) r.sourcePath r), mem := assocStore s.mem r.sourcePath r } := ⟨_, rfl⟩
    have hs₁mem : s₁.mem = s.mem ++ [(r.sourcePath, r)] := by
      rw [hs₁]
      exact hmem₁
    have hs₁bucket : s₁.bucket = some s₁.mem := by
      rw [hs₁]
      dsimp only
      rw [hbucket₁]
    have hs₁ft : s₁.failTx = false := by rw [hs₁]; exact h₁
    have hs₁fp : s₁.failPut = [] := by rw [hs₁]; exact h₂
    have hrest : ∀ r' ∈ rest, assocLoad s₁.mem r'.sourcePath = none := by
      intro r' hr'
      rw [hs₁mem, assocLoad_append_of_none _ _ _ (h₃ r' (by simp [hr']))]
      have hne : r.sourcePath ≠ r'.sourcePath := by
        intro hcontra
        exact hnotin (hcontra ▸ List.mem_map_of_mem FileMetadata.sourcePath hr')
      simp [assocLoad, hne]
    obtain ⟨s', hs', hsmem, hsbucket⟩ := ih s₁ hs₁ft hs₁fp hrest h₄' hs₁bucket
    refine ⟨s', ?_, ?_, hsbucket⟩
    · unfold storeAllFiles
      rw [hstep, ← hs₁]
      exact hs'
    · rw [hsmem, hs₁mem]
      simp

theorem loadFold_of_disjoint {β : Type} : ∀ (L acc : List (String × β)),
    (∀ p ∈ L, assocLoad acc p.1 = none) → (assocKeys L).Nodup →
    loadFold acc L = acc ++ L := by
  intro L
  induction L with
  | nil =>
    intro acc _ _
    simp [loadFold]
  | cons p t ih =>
    intro acc h₁ h₂
    obtain ⟨k, v⟩ := p
    have hst : assocStore acc k v = acc ++ [(k, v)] :=
      assocStore_of_load_none _ _ _ (h₁ (k, v) (by simp))
    have hkeys : k ∉ assocKeys t := by
      simp only [assocKeys, List.map_cons, List.nodup_cons] at h₂
      exact h₂.1
    have h₂' : (assocKeys t).Nodup := by
      simp only [assocKeys, List.map_cons, List.nodup_cons] at h₂
      exact h₂.2
    have h₁' : ∀ q ∈ t, assocLoad (acc ++ [(k, v)]) q.1 = none := by
      intro q hq
      rw [assocLoad_append_of_none _ _ _ (h₁ q (by simp [hq]))]
      have hne : k ≠ q.1 := by
        intro hc
        exact hkeys (hc ▸ List.mem_map_of_mem Prod.fst hq)
      simp [assocLoad, hne]
    have hfirst : loadFold acc ((k, v) :: t) = loadFold (assocStore acc k v) t := rfl
    rw [hfirst, hst, ih (acc ++ [(k, v)]) h₁' h₂']
    simp

def freshTM (α : Type) : TransferManager α :=
  { preexisting := false
    files := { mem := [], bucket := some [], failPut := [], failTx := false,
               failDbSync := false, clock := 1 }
    attrs := { mem := [], bucket := some [], failPut := [], failTx := false,
               failDbSync := false }
    serverB := some none
    serverInfo := none }

/-- Claim C1: the recovery round trip.  A manager opened on an absent
lock file, through which a batch of records with distinct source paths
is stored, and which is closed without finish (the lock file stays on
disk), yields on reopening a manager that reports preexisting and
whose transfer registry snapshot is exactly the stored records. -/
theorem c1_recovery_roundtrip (α : Type) (rs : List FileMetadata)
    (hnd : (rs.map FileMetadata.sourcePath).Nodup) (hne : rs ≠ []) :
    ∃ (tm₁ : TransferManager α) (f₁ : fileMetadataMap) (tm₂ : TransferManager α)
      (out : List FileMetadata),
      NewTransferManager (α := α) none false = .ok tm₁
    ∧ storeAllFiles tm₁.files rs = .ok f₁
    ∧ NewTransferManager (TransferManager.CloseDisk { tm₁ with files := f₁ }) false = .ok tm₂
    ∧ tm₂.IsPreexisting = true
    ∧ tm₂.files.GetSlice = .ok out
    ∧ out.Perm rs := by
  obtain ⟨f₁, hstore, hf₁mem, hf₁bucket⟩ :=
    storeAllFiles_spec rs (freshTM α).files rfl rfl (fun r _ => rfl) hnd rfl
  replace hf₁mem : f₁.mem = rs.map (fun r => (r.sourcePath, r)) := by
    simpa [freshTM] using hf₁mem
  have hkeys : (assocKeys f₁.mem).Nodup := by
    rw [hf₁mem]
    simpa [assocKeys, List.map_map, Function.comp] using hnd
  have hfold : loadFold ([] : List (String × FileMetadata)) f₁.mem = f₁.mem := by
    have h := loadFold_of_disjoint f₁.mem [] (fun p _ => rfl) hkeys
    simpa using h
  obtain ⟨tm₂, htm₂def⟩ : ∃ tm₂ : TransferManager α, tm₂ = { preexisting := true, files := { mem := f₁.mem, bucket := some f₁.mem, failPut := [], failTx := false, failDbSync := false, clock := 1 }, attrs := { mem := [], bucket := some [], failPut := [], failTx := false, failDbSync := false }, serverB := some none, serverInfo := none } := ⟨_, rfl⟩
  have hclose : TransferManager.CloseDisk { freshTM α with files := f₁ } =
      some (⟨some f₁.mem, some none, some []⟩ : DBContent α) := by
    simp [TransferManager.CloseDisk, freshTM, hf₁bucket]
  have hfoldnil : loadFold ([] : List (String × α)) [] = [] := rfl
  have htm₂ : NewTransferManager (some (⟨some f₁.mem, some none, some []⟩ : DBContent α)) false = .ok tm₂ := by
    rw [htm₂def]
    simp [NewTransferManager, TransferManager.loadExistingData,
      fileMetadataMap.loadAll, attributes.loadAll, TransferManager.loadServerInfo,
      hfold, hfoldnil]
  have hvals : assocValues f₁.mem = rs := by
    rw [hf₁mem]
    simp only [assocValues, List.map_map]
    have hcomp : (Prod.snd ∘ fun r : FileMetadata => (r.sourcePath, r)) = id := rfl
    rw [hcomp, List.map_id]
  have hslice : tm₂.files.GetSlice = .ok rs := by
    rw [htm₂def]
    simp [fileMetadataMap.GetSlice, hvals, List.length_eq_zero, hne]
  refine ⟨freshTM α, f₁, tm₂, rs, rfl, hstore, ?_, ?_, hslice, List.Perm.refl rs⟩
  · rw [hclose]
    exact htm₂
  · rw [htm₂def]
    rfl

def c1meta : FileMetadata :=
  { FileMetadata.empty with sourcePath := "/a", targetPath := "/b" }

/-- Witness for C1 at a concrete batch of one record. -/
theorem c1_recovery_roundtrip_witness :
    (([c1meta].map FileMetadata.sourcePath).Nodup ∧ [c1meta] ≠ [])
  ∧ (∃ (tm₁ : TransferManager Nat) (f₁ : fileMetadataMap) (tm₂ : TransferManager Nat)
      (out : List FileMetadata),
      NewTransferManager (α := Nat) none false = .ok tm₁
    ∧ storeAllFiles tm₁.files [c1meta] = .ok f₁
    ∧ NewTransferManager (TransferManager.CloseDisk { tm₁ with files := f₁ }) false = .ok tm₂
    ∧ tm₂.IsPreexisting = true
    ∧ tm₂.files.GetSlice = .ok out
    ∧ out.Perm [c1meta]) :=
  ⟨⟨by decide, by decide⟩,
   c1_recovery_roundtrip Nat [c1meta] (by decide) (by decide)⟩

end Reflux
